import Mathlib

/-!
Verification development for the reminder subsystem of the Bookkeeping-App
repository. Two router variants exist in the source:

* `reminders.js` (the simple-identity variant): upsert matches on
  `companyNo`/`companyName` with an OR, always stores `active: true`, and the
  daily sweep `sendReminders` skips records already notified today.
* `reminders.cjs` (the key-based variant): upsert matches on a derived `key`,
  stores `active = status !== 'Completed'`, merges the freshly built entry over
  the matched record, and the sweep `sendRemindersOnce` has no same-day skip and
  sends to a hardcoded test address.

JavaScript optional string fields are modelled as `Option String` where `none`
stands for an absent field (`undefined`) or `null`; JS truthiness of such a
value is false exactly for `none` and the empty string.
-/

namespace Bookkeeping

/-- JS truthiness of an optional string: `undefined`, `null` and the empty
string are falsy, every other string is truthy. -/
def truthy : Option String → Bool
  | none => false
  | some s => s != ""

/-- JS `a || b` on two optional strings: the left operand when truthy,
otherwise the right operand. -/
def jsOr (a b : Option String) : Option String :=
  if truthy a then a else b

/-- Outcome of one `transporter.sendMail` call: the `to` address the message
was addressed to, and whether the relay accepted it. -/
structure SendAttempt where
  dest : String
  delivered : Bool
deriving DecidableEq, Repr

/-- HTTP response of the mutating routes: `ok` models `{success:true}`,
`err400` models `res.status(400).json({error: msg})`. -/
inductive Resp
  | ok
  | err400 (msg : String)
deriving DecidableEq, Repr

/-- Result of the upsert route: a 400 validation failure leaving the store as
it was, or success together with the record written to the store and the new
store contents. -/
inductive UpsertOut (ρ : Type)
  | err400 (msg : String) (store : List ρ)
  | ok (written : ρ) (store : List ρ)
deriving DecidableEq, Repr

/-- Store contents after an upsert, in either outcome. -/
def UpsertOut.store : UpsertOut ρ → List ρ
  | .err400 _ s => s
  | .ok _ s => s

/-- Request body of the upsert route: the fields either variant reads from
`req.body`. Absent fields are `none`. -/
structure Payload where
  companyNo : Option String := none
  companyName : Option String := none
  bookkeeper : Option String := none
  bookkeeperEmail : Option String := none
  email : Option String := none
  status : Option String := none
  period : Option String := none
  reference : Option String := none
deriving DecidableEq, Repr, Inhabited

/-- Record shape of the simple-identity variant (`reminders.js`): the payload
fields spread into the object, plus the fields the route overrides
(`id`, `lastNotifiedAt`, `active`, `createdAt`). -/
structure Rec000 where
  companyNo : Option String := none
  companyName : Option String := none
  bookkeeper : Option String := none
  bookkeeperEmail : Option String := none
  email : Option String := none
  status : Option String := none
  period : Option String := none
  reference : Option String := none
  id : Option String := none
  lastNotifiedAt : Option String := none
  active : Bool := true
  createdAt : Option String := none
deriving DecidableEq, Repr, Inhabited

/-- The `newEntry` object of `reminders.js`: `{...record, id: record.companyNo
|| record.companyName, lastNotifiedAt: null, active: true, createdAt: now}`.
The overrides come after the spread, so they win over payload fields. -/
def mkEntry000 (p : Payload) (now : String) : Rec000 :=
  { companyNo := p.companyNo
    companyName := p.companyName
    bookkeeper := p.bookkeeper
    bookkeeperEmail := p.bookkeeperEmail
    email := p.email
    status := p.status
    period := p.period
    reference := p.reference
    id := jsOr p.companyNo p.companyName
    lastNotifiedAt := none
    active := true
    createdAt := some now }

/-- The match used by `findIndex` in the upsert of `reminders.js`:
`r.companyNo === record.companyNo || r.companyName === record.companyName`.
Strict equality on possibly absent fields is equality of options, so two
absent fields compare equal, as `undefined === undefined` does. -/
def match000 (p : Payload) (r : Rec000) : Bool :=
  r.companyNo == p.companyNo || r.companyName == p.companyName

/-- POST `/` of `reminders.js`: 400 when both identity fields are falsy;
otherwise replace the first record matched by `match000` with the new entry,
or append the new entry when none matches. -/
def upsert000 (p : Payload) (now : String) (store : List Rec000) : UpsertOut Rec000 :=
  if !truthy p.companyNo && !truthy p.companyName then
    .err400 "Missing companyNo or companyName" store
  else
    let entry := mkEntry000 p now
    match store.findIdx? (match000 p) with
    | some i => .ok entry (store.set i entry)
    | none => .ok entry (store ++ [entry])

/-- POST `/complete` of `reminders.js`: 400 when both identifiers are falsy;
otherwise set `active = false` on every record with
`r.companyNo === companyNo || r.companyName === companyName`. -/
def complete000 (cNo cName : Option String) (store : List Rec000) :
    Resp × List Rec000 :=
  if !truthy cNo && !truthy cName then
    (.err400 "Missing identifier", store)
  else
    (.ok, store.map fun r =>
      if r.companyNo == cNo || r.companyName == cName then
        { r with active := false }
      else r)

/-- Processing of one record inside `sendReminders` of `reminders.js`. The
sweep captures one `now` and computes `today = now.slice(0,10)` once; per
record it skips inactive records, records with no truthy email field, and
records whose `lastNotifiedAt` has calendar date `today`; otherwise it sends
to `bookkeeperEmail || email` and, when the relay accepts (`succ`), stamps
`lastNotifiedAt = now`. A rejected send leaves the record unchanged. -/
def step000 (now : String) (succ : Bool) (r : Rec000) : Rec000 × Option SendAttempt :=
  if !r.active then (r, none)
  else if !truthy r.bookkeeperEmail && !truthy r.email then (r, none)
  else
    let today := now.take 10
    let lastSent : Option String :=
      if truthy r.lastNotifiedAt then some ((r.lastNotifiedAt.getD "").take 10) else none
    if lastSent == some today then (r, none)
    else
      let dest := (jsOr r.bookkeeperEmail r.email).getD ""
      if succ then ({ r with lastNotifiedAt := some now }, some ⟨dest, true⟩)
      else (r, some ⟨dest, false⟩)

/-- Record shape of the key-based variant (`reminders.cjs`): exactly the
fields of the `entry` object built by its upsert, whose string fields are
always present (defaulted to the empty string), plus an optional `email`
field, which this router never writes but its sweep reads
(`r.bookkeeperEmail || r.email`), so it can only come from pre-existing
stored data. -/
structure Rec003 where
  key : String := ""
  companyNo : String := ""
  companyName : String := ""
  bookkeeper : String := ""
  bookkeeperEmail : String := ""
  status : String := ""
  period : String := ""
  reference : String := ""
  active : Bool := true
  lastNotifiedAt : Option String := none
  createdAt : String := ""
  email : Option String := none
deriving DecidableEq, Repr, Inhabited

/-- JS string coercion used in template concatenation: `undefined` prints as
the literal string "undefined". -/
def coerceStr : Option String → String
  | none => "undefined"
  | some s => s

/-- The key of `reminders.cjs`:
`body.companyNo || (body.companyName + :: + (body.reference || ))`. -/
def mkKey (p : Payload) : String :=
  if truthy p.companyNo then p.companyNo.getD ""
  else coerceStr p.companyName ++ "::" ++ p.reference.getD ""

/-- The `entry` object of `reminders.cjs`: every field is defaulted with
`|| `, `bookkeeperEmail` falls back to `body.email`, `active` is
`body.status !== Completed`, `lastNotifiedAt` is `null` and `createdAt` is
the current time. The object has no `email` property. -/
def mkEntry003 (p : Payload) (now : String) : Rec003 :=
  { key := mkKey p
    companyNo := p.companyNo.getD ""
    companyName := p.companyName.getD ""
    bookkeeper := p.bookkeeper.getD ""
    bookkeeperEmail := (jsOr p.bookkeeperEmail p.email).getD ""
    status := p.status.getD ""
    period := p.period.getD ""
    reference := p.reference.getD ""
    active := p.status != some "Completed"
    lastNotifiedAt := none
    createdAt := now
    email := none }

/-- The JS spread merge `{ ...old, ...entry }` of `reminders.cjs`: every
property of `entry` wins; the only model field `entry` does not define is
`email`, which keeps the old value. -/
def merge003 (old entry : Rec003) : Rec003 :=
  { entry with email := old.email }

/-- POST `/` of `reminders.cjs`: 400 when both identity fields are falsy;
otherwise build the key and entry, replace the first record whose `key`
strictly equals the computed key with the spread merge of the entry over it,
or append the entry when no key matches. -/
def upsert003 (p : Payload) (now : String) (store : List Rec003) : UpsertOut Rec003 :=
  if !truthy p.companyNo && !truthy p.companyName then
    .err400 "companyNo or companyName required" store
  else
    let key := mkKey p
    let entry := mkEntry003 p now
    match store.findIdx? (fun r => r.key == key) with
    | some i =>
        let merged := merge003 (store.getD i default) entry
        .ok merged (store.set i merged)
    | none => .ok entry (store ++ [entry])

/-- POST `/complete` of `reminders.cjs`: 400 when both identifiers are falsy;
otherwise set `active = false` and `status = Completed` on every record with
`r.companyNo === companyNo || r.companyName === companyName`. The record
fields are plain strings here, so a strict comparison against a possibly
absent request field holds exactly when the request field is that string. -/
def complete003 (cNo cName : Option String) (store : List Rec003) :
    Resp × List Rec003 :=
  if !truthy cNo && !truthy cName then
    (.err400 "companyNo or companyName required", store)
  else
    (.ok, store.map fun r =>
      if some r.companyNo == cNo || some r.companyName == cName then
        { r with active := false, status := "Completed" }
      else r)

/-- Processing of one record inside `sendRemindersOnce` of `reminders.cjs`:
skip inactive records and records whose `bookkeeperEmail || email` is falsy;
otherwise call `sendMail` with the hardcoded destination
`rajawatanubhav4@gmail.com` (the resolved address is only used as the
eligibility gate) and, on acceptance, stamp `lastNotifiedAt` with the current
time. There is no same-day check. -/
def step003 (now : String) (succ : Bool) (r : Rec003) : Rec003 × Option SendAttempt :=
  if !r.active then (r, none)
  else
    let dest := jsOr (some r.bookkeeperEmail) r.email
    if !truthy dest then (r, none)
    else if succ then
      ({ r with lastNotifiedAt := some now }, some ⟨"rajawatanubhav4@gmail.com", true⟩)
    else (r, some ⟨"rajawatanubhav4@gmail.com", false⟩)

/-- A parsed JSON value found in the backing file: either an array of records
or some other well-formed JSON value. -/
inductive FileJson (ρ : Type)
  | arr (records : List ρ)
  | nonArray
deriving DecidableEq, Repr

/-- State of the backing file as seen by `fs.readJson`: absent (the read
throws), unreadable (parsing throws), or well-formed JSON content. -/
inductive FileState (ρ : Type)
  | absent
  | unreadable
  | content (v : FileJson ρ)
deriving DecidableEq, Repr

/-- Value a load can produce in the key-based variant: a record list, or the
parsed non-array JSON value passed through unchanged. -/
inductive LoadOut (ρ : Type)
  | records (l : List ρ)
  | nonListValue
deriving DecidableEq, Repr

/-- The `loadReminders` of `reminders.js`: a thrown read or parse error is
caught and degrades to the empty list, and a well-formed non-array value is
replaced by the empty list by the `Array.isArray` guard. -/
def loadReminders000 (f : FileState Rec000) : List Rec000 :=
  match f with
  | .absent => []
  | .unreadable => []
  | .content (.arr l) => l
  | .content .nonArray => []

/-- The `loadReminders` of `reminders.cjs`: a thrown read or parse error is
caught and degrades to the empty list, but there is no `Array.isArray` guard,
so a well-formed non-array JSON value is returned as-is. -/
def loadReminders003 (f : FileState Rec003) : LoadOut Rec003 :=
  match f with
  | .absent => .records []
  | .unreadable => .records []
  | .content (.arr l) => .records l
  | .content .nonArray => .nonListValue

/-- Whether a send attempt resulted in a delivered notification. -/
def attDelivered : Option SendAttempt → Bool
  | some a => a.delivered
  | none => false

/-- One sweep over the store: each record is processed by the per-record step,
with a position-indexed success oracle standing for the mail relay accepting
or rejecting each send. -/
def sweepList (step : Nat → ρ → ρ × Option SendAttempt) :
    Nat → List ρ → List (ρ × Option SendAttempt)
  | _, [] => []
  | i, r :: rs => step i r :: sweepList step (i + 1) rs

/-- The store persisted by `saveReminders` at the end of a sweep: the
possibly restamped records. -/
def afterSweep (res : List (ρ × Option SendAttempt)) : List ρ :=
  res.map Prod.fst

/-- Whether the record at position `i` had a delivered notification in the
given sweep result. -/
def deliveredAt (res : List (ρ × Option SendAttempt)) (i : Nat) : Bool :=
  match res[i]? with
  | some (_, att) => attDelivered att
  | none => false

/-- Total number of delivered notifications to the record at position `i`
across a whole sequence of sweep invocations, each given by its captured
timestamp and its success oracle; each sweep runs on the store saved by the
previous one. -/
def sendsAt (stepOf : String → Bool → ρ → ρ × Option SendAttempt) :
    List (String × (Nat → Bool)) → List ρ → Nat → Nat
  | [], _, _ => 0
  | (now, succ) :: rest, store, i =>
      let res := sweepList (fun j r => stepOf now (succ j) r) 0 store
      (if deliveredAt res i then 1 else 0) + sendsAt stepOf rest (afterSweep res) i

/-- Delivered-notification count per position for iterated invocations of
`sendReminders` of `reminders.js`. -/
def sendsAt000 (sweeps : List (String × (Nat → Bool))) (store : List Rec000) (i : Nat) : Nat :=
  sendsAt step000 sweeps store i

/-- Delivered-notification count per position for iterated invocations of
`sendRemindersOnce` of `reminders.cjs`. -/
def sendsAt003 (sweeps : List (String × (Nat → Bool))) (store : List Rec003) (i : Nat) : Nat :=
  sendsAt step003 sweeps store i

/-- Per-record trace of a sequence of step invocations, each with its sweep
timestamp and its success flag for this record; returns the final record and
the number of delivered notifications. -/
def stepRuns (stepOf : String → Bool → ρ → ρ × Option SendAttempt) :
    List (String × Bool) → ρ → ρ × Nat
  | [], r => (r, 0)
  | (now, sc) :: rest, r =>
      let out := stepOf now sc r
      let rec2 := stepRuns stepOf rest out.1
      (rec2.1, (if attDelivered out.2 then 1 else 0) + rec2.2)

/-- The invariant claimed for the data model: a record whose status is the
literal `Completed` is inactive. -/
def Inv003 (r : Rec003) : Prop :=
  r.status = "Completed" → r.active = false

instance (r : Rec003) : Decidable (Inv003 r) := by
  unfold Inv003; infer_instance

/-- Whether an upsert outcome is the success response. -/
def UpsertOut.isOk : UpsertOut ρ → Bool
  | .ok _ _ => true
  | .err400 _ _ => false

/-- Recursive characterization of the findIndex-set-push pattern in the
upsert of `reminders.cjs`: replace the first record whose key strictly equals
the key of the entry with the spread merge of the entry over it, else append
the entry. Proved equal to the store produced by `upsert003` below. -/
def upsertCore (entry : Rec003) : List Rec003 → List Rec003
  | [] => [entry]
  | r :: rs =>
      if r.key == entry.key then merge003 r entry :: rs
      else r :: upsertCore entry rs

/-! Helper lemmas shared by the claim theorems. -/

theorem validCond_false {a b : Option String} (h : (truthy a || truthy b) = true) :
    (!truthy a && !truthy b) = false := by
  cases h1 : truthy a <;> cases h2 : truthy b <;> simp_all

/-- Claim C5: a payload lacking both `companyNo` and `companyName` makes the
upsert of either variant answer the 400 validation error with its descriptive
message and leave the store exactly as it was. -/
theorem c5_validation_failure_store_unchanged
    (p : Payload) (now000 now003 : String) (s000 : List Rec000) (s003 : List Rec003)
    (h1 : truthy p.companyNo = false) (h2 : truthy p.companyName = false) :
    upsert000 p now000 s000 = .err400 "Missing companyNo or companyName" s000 ∧
    upsert003 p now003 s003 = .err400 "companyNo or companyName required" s003 := by
  unfold upsert000 upsert003
  simp [h1, h2]

/-- Witness for C5 at the empty payload on nonempty stores. -/
theorem c5_validation_failure_store_unchanged_witness :
    upsert000 {} "2024-01-01T00:00:00.000Z" [{ companyNo := some "1" }] =
      .err400 "Missing companyNo or companyName" [{ companyNo := some "1" }] ∧
    upsert003 {} "2024-01-01T00:00:00.000Z" [{ key := "1" }] =
      .err400 "companyNo or companyName required" [{ key := "1" }] :=
  c5_validation_failure_store_unchanged {} _ _ _ _ (by decide) (by decide)

/-- Claim C8 (amended): the load of the simple-identity variant returns the
empty list when the file is absent, unreadable, or holds well-formed
non-array JSON, surfacing no error; the load of the key-based variant does so
for an absent or unreadable file, but passes a well-formed non-array JSON
value through unchanged because it lacks the `Array.isArray` guard. -/
theorem c8_load_degrades_to_empty :
    loadReminders000 .absent = [] ∧
    loadReminders000 .unreadable = [] ∧
    loadReminders000 (.content .nonArray) = [] ∧
    loadReminders003 .absent = .records [] ∧
    loadReminders003 .unreadable = .records [] ∧
    loadReminders003 (.content .nonArray) = .nonListValue :=
  ⟨rfl, rfl, rfl, rfl, rfl, rfl⟩

/-- Counterexample to C8 as stated: on a backing file holding well-formed
non-array JSON, the load of the key-based variant does not return the empty
record list but the parsed non-list value itself. -/
theorem c8_cex :
    loadReminders003 (.content .nonArray) = LoadOut.nonListValue ∧
    LoadOut.nonListValue ≠ LoadOut.records ([] : List Rec003) := by
  exact ⟨rfl, by decide⟩

/-- Counterexample to C2 as stated: an upsert of the simple-identity variant
whose payload has status Completed and no existing match appends a record
with `active = true`, so after this operation not every stored record
satisfies the invariant that a Completed record is inactive. -/
theorem c2_cex :
    ((upsert000 { companyNo := some "1", status := some "Completed" }
        "2024-01-01T00:00:00.000Z" []).store.all
      fun r => !(r.status == some "Completed" && r.active)) = false := by
  decide

/-- Counterexample to C7 as stated: starting from the concrete store holding
records (companyNo 1, companyName A) and (companyNo 2, companyName B),
submitting the payload (companyNo 2, companyName A) twice, differing only in
status, matches the first record through the companyName half of the OR and
leaves two records with companyNo 2 in the store, not exactly one. -/
theorem c7_cex :
    (((upsert000 { companyNo := some "2", companyName := some "A", status := some "s2" }
        "2024-01-02T00:00:00.000Z"
        (upsert000 { companyNo := some "2", companyName := some "A", status := some "s1" }
          "2024-01-01T00:00:00.000Z"
          [{ companyNo := some "1", companyName := some "A" },
           { companyNo := some "2", companyName := some "B" }]).store).store).countP
      fun r => r.companyNo == some "2") = 2 := by
  decide

/-- Counterexample to C3 as stated, in both variants: an upsert whose payload
matches the existing record with identity 12345 rebuilds the record from the
payload, so the prior createdAt is replaced by the submission time in the
key-based and in the simple-identity variant alike, and fields the payload
does not provide, such as companyName and bookkeeper, are reset to their
defaults (empty strings in the key-based variant, absent in the
simple-identity wholesale replacement) rather than preserved. -/
theorem c3_cex :
    (upsert003 { companyNo := some "12345", status := some "s2" }
        "2024-06-01T00:00:00.000Z"
        [{ key := "12345", companyNo := "12345", companyName := "Acme",
           bookkeeper := "Bob", createdAt := "2024-01-01T00:00:00.000Z" }]).store =
      [{ key := "12345", companyNo := "12345", companyName := "", bookkeeper := "",
         bookkeeperEmail := "", status := "s2", period := "", reference := "",
         active := true, lastNotifiedAt := none,
         createdAt := "2024-06-01T00:00:00.000Z", email := none }] ∧
    (upsert000 { companyNo := some "12345", status := some "s2" }
        "2024-06-01T00:00:00.000Z"
        [{ companyNo := some "12345", companyName := some "Acme",
           bookkeeper := some "Bob",
           createdAt := some "2024-01-01T00:00:00.000Z" }]).store =
      [{ companyNo := some "12345", companyName := none, bookkeeper := none,
         bookkeeperEmail := none, email := none, status := some "s2", period := none,
         reference := none, id := some "12345", lastNotifiedAt := none, active := true,
         createdAt := some "2024-06-01T00:00:00.000Z" }] ∧
    ("2024-06-01T00:00:00.000Z" : String) ≠ "2024-01-01T00:00:00.000Z" := by
  exact ⟨by decide, by decide, by decide⟩

/-- Counterexample to C1 as stated: running the sweep of the key-based
variant twice within the same calendar day on a store holding one active
record with an address delivers two notifications to that record, because
`sendRemindersOnce` never consults `lastNotifiedAt`. -/
theorem c1_cex :
    sendsAt003
        [("2024-05-01T09:00:00.000Z", fun _ => true),
         ("2024-05-01T15:00:00.000Z", fun _ => true)]
        [{ companyName := "Acme", bookkeeperEmail := "b@x.com", active := true }] 0 = 2 ∧
    "2024-05-01T09:00:00.000Z".take 10 = "2024-05-01T15:00:00.000Z".take 10 := by
  exact ⟨by decide, by decide⟩

/-- Counterexample to C4 as stated: in the key-based variant a sweep send for
a record whose resolved address is its bookkeeperEmail b@x.com is addressed
to the hardcoded test destination, not to the resolved address. -/
theorem c4_cex :
    (step003 "2024-05-01T09:00:00.000Z" true
      { companyName := "Acme", bookkeeperEmail := "b@x.com", active := true }).2 =
      some ⟨"rajawatanubhav4@gmail.com", true⟩ ∧
    (jsOr (some "b@x.com") none).getD "" = "b@x.com" ∧
    ("rajawatanubhav4@gmail.com" : String) ≠ "b@x.com" := by
  exact ⟨by decide, by decide, by decide⟩

/-- Claim C6: for a Complete request carrying a companyNo, in both variants,
every stored record matched by the OR on companyNo and companyName ends with
`active = false` (the key-based variant additionally stamps status
Completed), every non-matching record is returned untouched at its position,
and the response is success regardless of how many records matched. -/
theorem c6_complete_deactivates_matches
    (cNo cName : Option String) (s000 : List Rec000) (s003 : List Rec003)
    (h : truthy cNo = true) :
    ((complete000 cNo cName s000).1 = .ok ∧
      ∀ (i : Nat) (r : Rec000), s000[i]? = some r →
        (((r.companyNo == cNo || r.companyName == cName) = true →
            ((complete000 cNo cName s000).2)[i]? = some { r with active := false }) ∧
         ((r.companyNo == cNo || r.companyName == cName) = false →
            ((complete000 cNo cName s000).2)[i]? = some r))) ∧
    ((complete003 cNo cName s003).1 = .ok ∧
      ∀ (i : Nat) (r : Rec003), s003[i]? = some r →
        (((some r.companyNo == cNo || some r.companyName == cName) = true →
            ((complete003 cNo cName s003).2)[i]? =
              some { r with active := false, status := "Completed" }) ∧
         ((some r.companyNo == cNo || some r.companyName == cName) = false →
            ((complete003 cNo cName s003).2)[i]? = some r))) := by
  have hc : ∀ b : Option String, (!truthy cNo && !truthy b) = false := by
    intro b; rw [h]; rfl
  constructor
  · constructor
    · unfold complete000; simp [hc]
    · intro i r hr
      unfold complete000
      simp only [hc, Bool.false_eq_true, if_false, List.getElem?_map, hr, Option.map_some']
      constructor
      · intro hm; rw [hm]; simp
      · intro hm; rw [hm]; simp
  · constructor
    · unfold complete003; simp [hc]
    · intro i r hr
      unfold complete003
      simp only [hc, Bool.false_eq_true, if_false, List.getElem?_map, hr, Option.map_some']
      constructor
      · intro hm; rw [hm]; simp
      · intro hm; rw [hm]; simp

/-- Witness for C6: a two-record store in the simple-identity variant where
the first record matches by companyNo and the second does not, and a
one-record store in the key-based variant with a match; zero-match success is
checked on the empty store. -/
theorem c6_complete_deactivates_matches_witness :
    ((complete000 (some "12345") none
        [{ companyNo := some "12345", companyName := some "Acme", active := true },
         { companyNo := some "9", companyName := some "Other", active := true }]).2)[0]? =
      some { companyNo := some "12345", companyName := some "Acme", active := false } ∧
    ((complete000 (some "12345") none
        [{ companyNo := some "12345", companyName := some "Acme", active := true },
         { companyNo := some "9", companyName := some "Other", active := true }]).2)[1]? =
      some { companyNo := some "9", companyName := some "Other", active := true } ∧
    ((complete003 (some "12345") none
        [{ key := "12345", companyNo := "12345", active := true }]).2)[0]? =
      some { key := "12345", companyNo := "12345", active := false,
             status := "Completed" } ∧
    (complete000 (some "12345") none ([] : List Rec000)).1 = .ok := by
  refine ⟨?_, ?_, ?_, ?_⟩
  · exact ((c6_complete_deactivates_matches (some "12345") none
      [{ companyNo := some "12345", companyName := some "Acme", active := true },
       { companyNo := some "9", companyName := some "Other", active := true }] []
      (by decide)).1.2 0
      { companyNo := some "12345", companyName := some "Acme", active := true }
      rfl).1 (by decide)
  · exact ((c6_complete_deactivates_matches (some "12345") none
      [{ companyNo := some "12345", companyName := some "Acme", active := true },
       { companyNo := some "9", companyName := some "Other", active := true }] []
      (by decide)).1.2 1
      { companyNo := some "9", companyName := some "Other", active := true }
      rfl).2 (by decide)
  · exact ((c6_complete_deactivates_matches (some "12345") none []
      [{ key := "12345", companyNo := "12345", active := true }]
      (by decide)).2.2 0
      { key := "12345", companyNo := "12345", active := true }
      rfl).1 (by decide)
  · exact (c6_complete_deactivates_matches (some "12345") none [] [] (by decide)).1.1

/-- Claim C9: a successful upsert in either variant stores a record whose
`lastNotifiedAt` is null, also when it updates an existing record that had
been notified, because both the replacement entry of the simple-identity
variant and the merged entry of the key-based variant carry
`lastNotifiedAt = null`. -/
theorem c9_upsert_resets_lastNotifiedAt
    (p : Payload) (t0 t3 : String) (s000 : List Rec000) (s003 : List Rec003)
    (h : (truthy p.companyNo || truthy p.companyName) = true) :
    ((upsert000 p t0 s000).isOk = true ∧
      ∀ (w : Rec000) (st : List Rec000), upsert000 p t0 s000 = .ok w st →
        w ∈ st ∧ w.lastNotifiedAt = none) ∧
    ((upsert003 p t3 s003).isOk = true ∧
      ∀ (w : Rec003) (st : List Rec003), upsert003 p t3 s003 = .ok w st →
        w ∈ st ∧ w.lastNotifiedAt = none) := by
  have hc := validCond_false h
  constructor
  · unfold upsert000
    simp only [hc, Bool.false_eq_true, if_false]
    cases hfi : s000.findIdx? (match000 p) with
    | some i =>
        obtain ⟨hlt, -, -⟩ := List.findIdx?_eq_some_iff_getElem.mp hfi
        refine ⟨rfl, ?_⟩
        intro w st hw
        cases hw
        exact ⟨List.mem_set _ _ hlt _, rfl⟩
    | none =>
        refine ⟨rfl, ?_⟩
        intro w st hw
        cases hw
        exact ⟨List.mem_append_right _ (List.mem_singleton_self _), rfl⟩
  · unfold upsert003
    simp only [hc, Bool.false_eq_true, if_false]
    cases hfi : s003.findIdx? (fun r => r.key == mkKey p) with
    | some i =>
        obtain ⟨hlt, -, -⟩ := List.findIdx?_eq_some_iff_getElem.mp hfi
        refine ⟨rfl, ?_⟩
        intro w st hw
        cases hw
        exact ⟨List.mem_set _ _ hlt _, rfl⟩
    | none =>
        refine ⟨rfl, ?_⟩
        intro w st hw
        cases hw
        exact ⟨List.mem_append_right _ (List.mem_singleton_self _), rfl⟩

/-- Witness for C9: updating a one-record store whose record has already been
notified leaves the stored record with `lastNotifiedAt = none` in both
variants. -/
theorem c9_upsert_resets_lastNotifiedAt_witness :
    mkEntry000 { companyNo := some "1", status := some "s2" } "2024-02-02T00:00:00.000Z" ∈
        ([{ companyNo := some "1", status := some "s1",
            lastNotifiedAt := some "2024-02-01T09:00:00.000Z" }] : List Rec000).set 0
          (mkEntry000 { companyNo := some "1", status := some "s2" }
            "2024-02-02T00:00:00.000Z") ∧
    (mkEntry000 { companyNo := some "1", status := some "s2" }
        "2024-02-02T00:00:00.000Z").lastNotifiedAt = none := by
  exact (c9_upsert_resets_lastNotifiedAt
      { companyNo := some "1", status := some "s2" } "2024-02-02T00:00:00.000Z"
      "2024-02-02T00:00:00.000Z"
      [{ companyNo := some "1", status := some "s1",
         lastNotifiedAt := some "2024-02-01T09:00:00.000Z" }] [] (by decide)).1.2
    (mkEntry000 { companyNo := some "1", status := some "s2" } "2024-02-02T00:00:00.000Z")
    (([{ companyNo := some "1", status := some "s1",
         lastNotifiedAt := some "2024-02-01T09:00:00.000Z" }] : List Rec000).set 0
      (mkEntry000 { companyNo := some "1", status := some "s2" }
        "2024-02-02T00:00:00.000Z"))
    (by decide)

/-- Claim C10: in the simple-identity variant a Complete request that
supplies only companyName deactivates every stored record lacking a
companyNo field, whatever its companyName, because the strict equality
`r.companyNo === companyNo` holds when both sides are undefined. -/
theorem c10_complete_by_name_hits_companyNo_missing
    (cName : Option String) (store : List Rec000) (h : truthy cName = true) :
    (complete000 none cName store).1 = .ok ∧
    ∀ (i : Nat) (r : Rec000), store[i]? = some r → r.companyNo = none →
      ((complete000 none cName store).2)[i]? = some { r with active := false } := by
  have hc : (!truthy (none : Option String) && !truthy cName) = false := by
    rw [h]; rfl
  constructor
  · unfold complete000; simp [hc]
  · intro i r hr hno
    unfold complete000
    simp only [hc, Bool.false_eq_true, if_false, List.getElem?_map, hr, Option.map_some']
    rw [if_pos]
    rw [hno]
    simp

/-- Witness for C10: the request names company X, the stored record has
company name Other and no companyNo, and still ends deactivated. -/
theorem c10_complete_by_name_hits_companyNo_missing_witness :
    ((complete000 none (some "X")
        [{ companyName := some "Other", active := true }]).2)[0]? =
      some { companyName := some "Other", active := false } :=
  (c10_complete_by_name_hits_companyNo_missing (some "X")
      [{ companyName := some "Other", active := true }] (by decide)).2
    0 { companyName := some "Other", active := true } rfl rfl

/-! Lemmas about sweeps, leading to the per-day bound for `sendReminders`. -/

theorem sweepList_getElem? {ρ : Type} (step : Nat → ρ → ρ × Option SendAttempt) :
    ∀ (l : List ρ) (k i : Nat), (sweepList step k l)[i]? = (l[i]?).map (step (k + i)) := by
  intro l
  induction l with
  | nil => intro k i; simp [sweepList]
  | cons r rs ih =>
    intro k i
    cases i with
    | zero => simp [sweepList]
    | succ i =>
        have harith : k + 1 + i = k + (i + 1) := by omega
        simp [sweepList, ih (k + 1) i, harith]

theorem sendsAt_of_getElem?_none {ρ : Type}
    (stepOf : String → Bool → ρ → ρ × Option SendAttempt) :
    ∀ (sweeps : List (String × (Nat → Bool))) (store : List ρ) (i : Nat),
      store[i]? = none → sendsAt stepOf sweeps store i = 0 := by
  intro sweeps
  induction sweeps with
  | nil => intro store i h; rfl
  | cons q rest ih =>
    intro store i h
    obtain ⟨now, succ⟩ := q
    have hres : (sweepList (fun j r => stepOf now (succ j) r) 0 store)[i]? = none := by
      rw [sweepList_getElem?, h]; rfl
    have hafter : (afterSweep (sweepList (fun j r => stepOf now (succ j) r) 0 store))[i]? =
        (none : Option ρ) := by
      simp [afterSweep, hres]
    simp [sendsAt, deliveredAt, hres, ih _ _ hafter]

theorem sendsAt_eq_stepRuns {ρ : Type}
    (stepOf : String → Bool → ρ → ρ × Option SendAttempt) :
    ∀ (sweeps : List (String × (Nat → Bool))) (store : List ρ) (i : Nat) (r : ρ),
      store[i]? = some r →
      sendsAt stepOf sweeps store i =
        (stepRuns stepOf (sweeps.map fun q => (q.1, q.2 i)) r).2 := by
  intro sweeps
  induction sweeps with
  | nil => intro store i r h; rfl
  | cons q rest ih =>
    intro store i r h
    obtain ⟨now, succ⟩ := q
    have hres : (sweepList (fun j r => stepOf now (succ j) r) 0 store)[i]? =
        some (stepOf now (succ i) r) := by
      rw [sweepList_getElem?, h]; simp
    have hafter : (afterSweep (sweepList (fun j r => stepOf now (succ j) r) 0 store))[i]? =
        some (stepOf now (succ i) r).1 := by
      simp [afterSweep, hres]
    simp [sendsAt, deliveredAt, hres, stepRuns, ih _ _ _ hafter]

theorem step000_skip_stamped (now : String) (sc : Bool) (r : Rec000)
    (h1 : truthy r.lastNotifiedAt = true)
    (h2 : (r.lastNotifiedAt.getD "").take 10 = now.take 10) :
    step000 now sc r = (r, none) := by
  unfold step000
  by_cases ha : (!r.active) = true
  · simp [ha]
  · by_cases he : (!truthy r.bookkeeperEmail && !truthy r.email) = true
    · simp [ha, he]
    · simp [ha, he, h1, h2]

theorem step000_cases (now : String) (sc : Bool) (r : Rec000) :
    step000 now sc r = (r, none) ∨
    (step000 now sc r = ({ r with lastNotifiedAt := some now },
        some ⟨(jsOr r.bookkeeperEmail r.email).getD "", true⟩) ∧ sc = true) ∨
    (step000 now sc r = (r, some ⟨(jsOr r.bookkeeperEmail r.email).getD "", false⟩) ∧
        sc = false) := by
  cases ha : r.active with
  | false => exact Or.inl (by simp [step000, ha])
  | true =>
    cases hdate : ((if truthy r.lastNotifiedAt then
        some ((r.lastNotifiedAt.getD "").take 10) else none) == some (now.take 10)) with
    | true =>
      cases hbe : truthy r.bookkeeperEmail <;> cases hem : truthy r.email <;>
        exact Or.inl (by simp [step000, ha, hbe, hem, hdate])
    | false =>
      cases hbe : truthy r.bookkeeperEmail <;> cases hem : truthy r.email
      · exact Or.inl (by simp [step000, ha, hbe, hem])
      all_goals cases hsc : sc
      all_goals first
        | exact Or.inr (Or.inr ⟨by simp [step000, ha, hbe, hem, hdate, hsc], rfl⟩)
        | exact Or.inr (Or.inl ⟨by simp [step000, ha, hbe, hem, hdate, hsc], rfl⟩)

theorem step000_delivered_stamp (now : String) (sc : Bool) (r : Rec000)
    (h : attDelivered (step000 now sc r).2 = true) :
    (step000 now sc r).1 = { r with lastNotifiedAt := some now } := by
  rcases step000_cases now sc r with heq | ⟨heq, -⟩ | ⟨heq, -⟩
  · rw [heq] at h
    simp [attDelivered] at h
  · rw [heq]
  · rw [heq] at h
    simp [attDelivered] at h

theorem stepRuns000_stamped (d : String) :
    ∀ (runs : List (String × Bool)) (r : Rec000),
      (∀ q ∈ runs, (q.1).take 10 = d) →
      truthy r.lastNotifiedAt = true →
      (r.lastNotifiedAt.getD "").take 10 = d →
      stepRuns step000 runs r = (r, 0) := by
  intro runs
  induction runs with
  | nil => intro r _ _ _; rfl
  | cons q rest ih =>
    intro r hq h1 h2
    obtain ⟨now, sc⟩ := q
    have hnow : now.take 10 = d := by
      simpa using hq (now, sc) (List.mem_cons_self _ _)
    have hstep : step000 now sc r = (r, none) :=
      step000_skip_stamped now sc r h1 (h2.trans hnow.symm)
    have hrest := ih r (fun q hmem => hq _ (List.mem_cons_of_mem _ hmem)) h1 h2
    simp [stepRuns, hstep, attDelivered, hrest]

theorem stepRuns000_le_one (d : String) :
    ∀ (runs : List (String × Bool)) (r : Rec000),
      (∀ q ∈ runs, q.1 ≠ "" ∧ (q.1).take 10 = d) →
      (stepRuns step000 runs r).2 ≤ 1 := by
  intro runs
  induction runs with
  | nil => intro r _; simp [stepRuns]
  | cons q rest ih =>
    intro r h
    obtain ⟨now, sc⟩ := q
    obtain ⟨hne, hd⟩ := h _ (List.mem_cons_self _ _)
    have hrest : ∀ q ∈ rest, q.1 ≠ "" ∧ (q.1).take 10 = d :=
      fun q hmem => h _ (List.mem_cons_of_mem _ hmem)
    by_cases hdel : attDelivered (step000 now sc r).2 = true
    · have hst := step000_delivered_stamp now sc r hdel
      have h1 : truthy ((step000 now sc r).1).lastNotifiedAt = true := by
        rw [hst]
        simpa [truthy] using hne
      have h2 : (((step000 now sc r).1).lastNotifiedAt.getD "").take 10 = d := by
        rw [hst]
        simpa using hd
      have hstamped := stepRuns000_stamped d rest ((step000 now sc r).1)
        (fun q hmem => (hrest q hmem).2) h1 h2
      simp [stepRuns, hdel, hstamped]
    · have hdel0 : attDelivered (step000 now sc r).2 = false := by
        cases hx : attDelivered (step000 now sc r).2
        · rfl
        · exact absurd hx hdel
      simpa [stepRuns, hdel0] using ih ((step000 now sc r).1) hrest

/-- Claim C1 (amended): the sweep of the simple-identity variant
(`sendReminders`) delivers at most one notification to each record position
across any number of invocations whose captured timestamps share one
calendar date, and a record whose `lastNotifiedAt` carries the calendar date
of the sweep timestamp is skipped with no send attempt and no change; the
sweep of the key-based variant (`sendRemindersOnce`) has no such bound, as
`c1_cex` shows. -/
theorem c1_sendReminders_at_most_once_per_day
    (sweeps : List (String × (Nat → Bool))) (d : String)
    (h : ∀ q ∈ sweeps, q.1 ≠ "" ∧ (q.1).take 10 = d)
    (store : List Rec000) (i : Nat) :
    sendsAt000 sweeps store i ≤ 1 ∧
    (∀ (now : String) (sc : Bool) (r : Rec000),
      truthy r.lastNotifiedAt = true →
      (r.lastNotifiedAt.getD "").take 10 = now.take 10 →
      step000 now sc r = (r, none)) := by
  constructor
  · cases hg : store[i]? with
    | none =>
        rw [sendsAt000, sendsAt_of_getElem?_none _ _ _ _ hg]
        exact Nat.zero_le 1
    | some r =>
        rw [sendsAt000, sendsAt_eq_stepRuns _ _ _ _ _ hg]
        apply stepRuns000_le_one d
        intro q hq
        obtain ⟨q0, hq0, rfl⟩ := List.mem_map.mp hq
        exact h q0 hq0
  · exact fun now sc r h1 h2 => step000_skip_stamped now sc r h1 h2

/-- Witness for C1: two same-day invocations of `sendReminders` on a
one-record store deliver at most one notification, and a second-sweep step on
the record stamped by the morning sweep is a no-op. -/
theorem c1_sendReminders_at_most_once_per_day_witness :
    sendsAt000
        [("2024-03-04T09:00:00.000Z", fun _ => true),
         ("2024-03-04T15:00:00.000Z", fun _ => true)]
        [{ companyName := some "Acme", bookkeeperEmail := some "b@x.com",
           active := true }] 0 ≤ 1 ∧
    step000 "2024-03-04T15:00:00.000Z" true
        { companyName := some "Acme", bookkeeperEmail := some "b@x.com", active := true,
          lastNotifiedAt := some "2024-03-04T09:00:00.000Z" } =
      ({ companyName := some "Acme", bookkeeperEmail := some "b@x.com", active := true,
         lastNotifiedAt := some "2024-03-04T09:00:00.000Z" }, none) := by
  constructor
  · exact (c1_sendReminders_at_most_once_per_day
      [("2024-03-04T09:00:00.000Z", fun _ => true),
       ("2024-03-04T15:00:00.000Z", fun _ => true)] "2024-03-04" (by decide)
      [{ companyName := some "Acme", bookkeeperEmail := some "b@x.com",
         active := true }] 0).1
  · exact (c1_sendReminders_at_most_once_per_day [] "2024-03-04" (by decide) [] 0).2
      "2024-03-04T15:00:00.000Z" true
      { companyName := some "Acme", bookkeeperEmail := some "b@x.com", active := true,
        lastNotifiedAt := some "2024-03-04T09:00:00.000Z" }
      (by decide) (by decide)

/-! Lemmas for the Completed-implies-inactive invariant of the key-based
variant, and its preservation. -/

theorem inv_mkEntry003 (p : Payload) (now : String) : Inv003 (mkEntry003 p now) := by
  intro hst
  have hst2 : p.status.getD "" = "Completed" := hst
  have hps : p.status = some "Completed" := by
    cases hx : p.status with
    | none => rw [hx] at hst2; exact absurd hst2 (by decide)
    | some s =>
        rw [hx] at hst2
        simp only [Option.getD_some] at hst2
        rw [hst2]
  show (mkEntry003 p now).active = false
  simp [mkEntry003, hps]

theorem inv_merge003 (old e : Rec003) (h : Inv003 e) : Inv003 (merge003 old e) :=
  fun hst => h hst

/-- Claim C2 (amended): in the key-based variant every operation preserves the
invariant that a record with status Completed is inactive, and an upsert with
status Completed and no key match appends the entry with `active = false`; in
the simple-identity variant the upsert always stores `active = true`, so the
invariant fails there, as `c2_cex` shows. -/
theorem c2_completed_implies_inactive_003
    (p : Payload) (now : String) (cNo cName : Option String) (store : List Rec003)
    (hInv : ∀ r ∈ store, Inv003 r) :
    (∀ r ∈ (upsert003 p now store).store, Inv003 r) ∧
    (∀ r ∈ (complete003 cNo cName store).2, Inv003 r) ∧
    (p.status = some "Completed" →
      (truthy p.companyNo || truthy p.companyName) = true →
      store.findIdx? (fun r => r.key == mkKey p) = none →
      upsert003 p now store = .ok (mkEntry003 p now) (store ++ [mkEntry003 p now]) ∧
      (mkEntry003 p now).active = false) := by
  have hent := inv_mkEntry003 p now
  refine ⟨?_, ?_, ?_⟩
  · unfold upsert003
    cases hcond : (!truthy p.companyNo && !truthy p.companyName) with
    | true =>
        simp only [hcond, if_true, UpsertOut.store]
        exact hInv
    | false =>
        simp only [hcond, Bool.false_eq_true, if_false]
        cases hfi : store.findIdx? (fun r => r.key == mkKey p) with
        | some i =>
            simp only [hfi, UpsertOut.store]
            intro r hr
            rcases List.mem_or_eq_of_mem_set hr with hmem | rfl
            · exact hInv r hmem
            · exact inv_merge003 _ _ hent
        | none =>
            simp only [hfi, UpsertOut.store]
            intro r hr
            rcases List.mem_append.mp hr with hmem | hmem
            · exact hInv r hmem
            · rw [List.mem_singleton.mp hmem]; exact hent
  · unfold complete003
    cases hcond : (!truthy cNo && !truthy cName) with
    | true =>
        simp only [hcond, if_true]
        exact hInv
    | false =>
        simp only [hcond, Bool.false_eq_true, if_false]
        intro r hr
        rcases List.mem_map.mp hr with ⟨x, hx, rfl⟩
        cases hm : (some x.companyNo == cNo || some x.companyName == cName) with
        | true => simp only [hm, if_true]; intro _; rfl
        | false => simp only [hm, Bool.false_eq_true, if_false]; exact hInv x hx
  · intro hcomp hv hfi
    have hcond := validCond_false hv
    constructor
    · unfold upsert003
      simp only [hcond, Bool.false_eq_true, if_false, hfi]
    · simp [mkEntry003, hcomp]

/-- Witness for C2: a payload with status Completed and a fresh companyNo on
the empty store appends an inactive entry. -/
theorem c2_completed_implies_inactive_003_witness :
    upsert003 { companyNo := some "9", status := some "Completed" }
        "2024-01-01T00:00:00.000Z" [] =
      .ok (mkEntry003 { companyNo := some "9", status := some "Completed" }
            "2024-01-01T00:00:00.000Z")
        ([] ++ [mkEntry003 { companyNo := some "9", status := some "Completed" }
            "2024-01-01T00:00:00.000Z"]) ∧
    (mkEntry003 { companyNo := some "9", status := some "Completed" }
        "2024-01-01T00:00:00.000Z").active = false :=
  (c2_completed_implies_inactive_003
      { companyNo := some "9", status := some "Completed" } "2024-01-01T00:00:00.000Z"
      none none [] (by decide)).2.2 rfl (by decide) (by decide)

/-- Claim C3 (amended): an upsert that matches an existing record rebuilds it
from the payload in both variants. In the key-based variant the match slot
receives the merge of the freshly built entry over the old record: every
entry field wins, so payload-absent fields reset to their defaults,
`createdAt` is reset to the submission time and `lastNotifiedAt` to null; the
key value is preserved only because the match equates it with the computed
key, and the one field the entry does not define (`email`) survives from the
old record. In the simple-identity variant the matched record is replaced
wholesale by the new entry, whose `createdAt` is likewise the submission time
and whose `lastNotifiedAt` is null, preserving nothing of the old record. In
both variants all other positions are untouched. -/
theorem c3_upsert_merge_rebuilds_entry
    (p : Payload) (now : String) (store : List Rec003) (i : Nat)
    (s000 : List Rec000) (i0 : Nat)
    (hv : (truthy p.companyNo || truthy p.companyName) = true)
    (hf : store.findIdx? (fun r => r.key == mkKey p) = some i)
    (hf0 : s000.findIdx? (match000 p) = some i0) :
    upsert003 p now store =
      .ok (merge003 (store.getD i default) (mkEntry003 p now))
          (store.set i (merge003 (store.getD i default) (mkEntry003 p now))) ∧
    (merge003 (store.getD i default) (mkEntry003 p now)).key =
      (store.getD i default).key ∧
    (merge003 (store.getD i default) (mkEntry003 p now)).createdAt = now ∧
    (merge003 (store.getD i default) (mkEntry003 p now)).lastNotifiedAt = none ∧
    (merge003 (store.getD i default) (mkEntry003 p now)).email =
      (store.getD i default).email ∧
    (∀ j : Nat, j ≠ i →
      (store.set i (merge003 (store.getD i default) (mkEntry003 p now)))[j]? =
        store[j]?) ∧
    upsert000 p now s000 =
      .ok (mkEntry000 p now) (s000.set i0 (mkEntry000 p now)) ∧
    (mkEntry000 p now).createdAt = some now ∧
    (mkEntry000 p now).lastNotifiedAt = none ∧
    ∀ j : Nat, j ≠ i0 →
      (s000.set i0 (mkEntry000 p now))[j]? = s000[j]? := by
  have hcond := validCond_false hv
  obtain ⟨hlt, hpi, -⟩ := List.findIdx?_eq_some_iff_getElem.mp hf
  have hgetD : store.getD i default = store[i] := by
    rw [List.getD_eq_getElem?_getD, List.getElem?_eq_getElem hlt]
    rfl
  have hkey : (store.getD i default).key = mkKey p := by
    rw [hgetD]
    exact eq_of_beq hpi
  refine ⟨?_, ?_, rfl, rfl, rfl, ?_, ?_, rfl, rfl, ?_⟩
  · unfold upsert003
    simp only [hcond, Bool.false_eq_true, if_false, hf]
  · show (mkEntry003 p now).key = (store.getD i default).key
    rw [hkey]
    rfl
  · intro j hj
    exact List.getElem?_set_ne (Ne.symm hj)
  · unfold upsert000
    simp only [hcond, Bool.false_eq_true, if_false, hf0]
  · intro j hj
    exact List.getElem?_set_ne (Ne.symm hj)

/-- Witness for C3 on two-record stores of both variants: the record with
identity 12345 is rebuilt from the payload, in the key-based variant keeping
its key and stored email but taking the new createdAt, in the
simple-identity variant replaced wholesale by the new entry, and the other
record is untouched in both. -/
theorem c3_upsert_merge_rebuilds_entry_witness :
    upsert003 { companyNo := some "12345", status := some "s2" }
        "2024-06-01T00:00:00.000Z"
        [{ key := "12345", companyNo := "12345", companyName := "Acme",
           createdAt := "2024-01-01T00:00:00.000Z", email := some "e@x.com",
           active := true },
         { key := "9", companyNo := "9" }] =
      .ok (merge003
            (([{ key := "12345", companyNo := "12345", companyName := "Acme",
                 createdAt := "2024-01-01T00:00:00.000Z", email := some "e@x.com",
                 active := true },
               { key := "9", companyNo := "9" }] : List Rec003).getD 0 default)
            (mkEntry003 { companyNo := some "12345", status := some "s2" }
              "2024-06-01T00:00:00.000Z"))
        (([{ key := "12345", companyNo := "12345", companyName := "Acme",
             createdAt := "2024-01-01T00:00:00.000Z", email := some "e@x.com",
             active := true },
           { key := "9", companyNo := "9" }] : List Rec003).set 0
          (merge003
            (([{ key := "12345", companyNo := "12345", companyName := "Acme",
                 createdAt := "2024-01-01T00:00:00.000Z", email := some "e@x.com",
                 active := true },
               { key := "9", companyNo := "9" }] : List Rec003).getD 0 default)
            (mkEntry003 { companyNo := some "12345", status := some "s2" }
              "2024-06-01T00:00:00.000Z"))) ∧
    (([{ key := "12345", companyNo := "12345", companyName := "Acme",
         createdAt := "2024-01-01T00:00:00.000Z", email := some "e@x.com",
         active := true },
       { key := "9", companyNo := "9" }] : List Rec003).set 0
      (merge003
        (([{ key := "12345", companyNo := "12345", companyName := "Acme",
             createdAt := "2024-01-01T00:00:00.000Z", email := some "e@x.com",
             active := true },
           { key := "9", companyNo := "9" }] : List Rec003).getD 0 default)
        (mkEntry003 { companyNo := some "12345", status := some "s2" }
          "2024-06-01T00:00:00.000Z")))[1]? =
      ([{ key := "12345", companyNo := "12345", companyName := "Acme",
          createdAt := "2024-01-01T00:00:00.000Z", email := some "e@x.com",
          active := true },
        { key := "9", companyNo := "9" }] : List Rec003)[1]? ∧
    upsert000 { companyNo := some "12345", status := some "s2" }
        "2024-06-01T00:00:00.000Z"
        [{ companyNo := some "12345", companyName := some "Acme",
           bookkeeper := some "Bob", createdAt := some "2024-01-01T00:00:00.000Z",
           active := true },
         { companyNo := some "9" }] =
      .ok (mkEntry000 { companyNo := some "12345", status := some "s2" }
            "2024-06-01T00:00:00.000Z")
        (([{ companyNo := some "12345", companyName := some "Acme",
             bookkeeper := some "Bob", createdAt := some "2024-01-01T00:00:00.000Z",
             active := true },
           { companyNo := some "9" }] : List Rec000).set 0
          (mkEntry000 { companyNo := some "12345", status := some "s2" }
            "2024-06-01T00:00:00.000Z")) ∧
    (([{ companyNo := some "12345", companyName := some "Acme",
         bookkeeper := some "Bob", createdAt := some "2024-01-01T00:00:00.000Z",
         active := true },
       { companyNo := some "9" }] : List Rec000).set 0
      (mkEntry000 { companyNo := some "12345", status := some "s2" }
        "2024-06-01T00:00:00.000Z"))[1]? =
      ([{ companyNo := some "12345", companyName := some "Acme",
          bookkeeper := some "Bob", createdAt := some "2024-01-01T00:00:00.000Z",
          active := true },
        { companyNo := some "9" }] : List Rec000)[1]? := by
  refine ⟨?_, ?_, ?_, ?_⟩
  · exact (c3_upsert_merge_rebuilds_entry
      { companyNo := some "12345", status := some "s2" } "2024-06-01T00:00:00.000Z"
      [{ key := "12345", companyNo := "12345", companyName := "Acme",
         createdAt := "2024-01-01T00:00:00.000Z", email := some "e@x.com",
         active := true },
       { key := "9", companyNo := "9" }] 0
      [{ companyNo := some "12345", companyName := some "Acme",
         bookkeeper := some "Bob", createdAt := some "2024-01-01T00:00:00.000Z",
         active := true },
       { companyNo := some "9" }] 0
      (by decide) (by decide) (by decide)).1
  · exact (c3_upsert_merge_rebuilds_entry
      { companyNo := some "12345", status := some "s2" } "2024-06-01T00:00:00.000Z"
      [{ key := "12345", companyNo := "12345", companyName := "Acme",
         createdAt := "2024-01-01T00:00:00.000Z", email := some "e@x.com",
         active := true },
       { key := "9", companyNo := "9" }] 0
      [{ companyNo := some "12345", companyName := some "Acme",
         bookkeeper := some "Bob", createdAt := some "2024-01-01T00:00:00.000Z",
         active := true },
       { companyNo := some "9" }] 0
      (by decide) (by decide) (by decide)).2.2.2.2.2.1
      1 (by decide)
  · exact (c3_upsert_merge_rebuilds_entry
      { companyNo := some "12345", status := some "s2" } "2024-06-01T00:00:00.000Z"
      [{ key := "12345", companyNo := "12345", companyName := "Acme",
         createdAt := "2024-01-01T00:00:00.000Z", email := some "e@x.com",
         active := true },
       { key := "9", companyNo := "9" }] 0
      [{ companyNo := some "12345", companyName := some "Acme",
         bookkeeper := some "Bob", createdAt := some "2024-01-01T00:00:00.000Z",
         active := true },
       { companyNo := some "9" }] 0
      (by decide) (by decide) (by decide)).2.2.2.2.2.2.1
  · exact (c3_upsert_merge_rebuilds_entry
      { companyNo := some "12345", status := some "s2" } "2024-06-01T00:00:00.000Z"
      [{ key := "12345", companyNo := "12345", companyName := "Acme",
         createdAt := "2024-01-01T00:00:00.000Z", email := some "e@x.com",
         active := true },
       { key := "9", companyNo := "9" }] 0
      [{ companyNo := some "12345", companyName := some "Acme",
         bookkeeper := some "Bob", createdAt := some "2024-01-01T00:00:00.000Z",
         active := true },
       { companyNo := some "9" }] 0
      (by decide) (by decide) (by decide)).2.2.2.2.2.2.2.2.2
      1 (by decide)

/-! Lemmas on address resolution in the sweeps. -/

theorem jsOr_falsy {a b : Option String} (h : truthy (jsOr a b) = false) :
    truthy a = false ∧ truthy b = false := by
  unfold jsOr at h
  cases ha : truthy a with
  | false =>
      simp only [ha, Bool.false_eq_true, if_false] at h
      exact ⟨rfl, h⟩
  | true => simp [ha] at h

theorem step003_cases (now : String) (sc : Bool) (r : Rec003) :
    step003 now sc r = (r, none) ∨
    (step003 now sc r = ({ r with lastNotifiedAt := some now },
        some ⟨"rajawatanubhav4@gmail.com", true⟩) ∧ sc = true) ∨
    (step003 now sc r = (r, some ⟨"rajawatanubhav4@gmail.com", false⟩) ∧
        sc = false) := by
  cases hact : r.active with
  | false => exact Or.inl (by simp [step003, hact])
  | true =>
    cases hdest : truthy (jsOr (some r.bookkeeperEmail) r.email) with
    | false => exact Or.inl (by simp [step003, hact, hdest])
    | true =>
      cases hsc : sc with
      | true => exact Or.inr (Or.inl ⟨by simp [step003, hact, hdest, hsc], rfl⟩)
      | false => exact Or.inr (Or.inr ⟨by simp [step003, hact, hdest, hsc], rfl⟩)

/-- Claim C4 (amended): every send attempt of the simple-identity sweep is
addressed to the destination resolved as `bookkeeperEmail || email`, and a
record with no resolvable address is skipped unchanged with no attempt, in
both variants; in the key-based sweep, however, the resolved address only
gates eligibility and every attempt is addressed to the hardcoded test
destination, as `c4_cex` shows. -/
theorem c4_sweep_destination_resolution :
    (∀ (now : String) (sc : Bool) (r r2 : Rec000) (a : SendAttempt),
        step000 now sc r = (r2, some a) →
        a.dest = (jsOr r.bookkeeperEmail r.email).getD "") ∧
    (∀ (now : String) (sc : Bool) (r : Rec000),
        truthy (jsOr r.bookkeeperEmail r.email) = false →
        step000 now sc r = (r, none)) ∧
    (∀ (now : String) (sc : Bool) (r : Rec003),
        truthy (jsOr (some r.bookkeeperEmail) r.email) = false →
        step003 now sc r = (r, none)) ∧
    (∀ (now : String) (sc : Bool) (r r2 : Rec003) (a : SendAttempt),
        step003 now sc r = (r2, some a) → a.dest = "rajawatanubhav4@gmail.com") := by
  refine ⟨?_, ?_, ?_, ?_⟩
  · intro now sc r r2 a h
    rcases step000_cases now sc r with heq | ⟨heq, -⟩ | ⟨heq, -⟩ <;> rw [heq] at h
    · exact absurd (congrArg Prod.snd h) (by simp)
    · rw [← Option.some.inj (congrArg Prod.snd h)]
    · rw [← Option.some.inj (congrArg Prod.snd h)]
  · intro now sc r h
    obtain ⟨hbe, hem⟩ := jsOr_falsy h
    cases hact : r.active with
    | false => simp [step000, hact]
    | true => simp [step000, hact, hbe, hem]
  · intro now sc r h
    cases hact : r.active with
    | false => simp [step003, hact]
    | true => simp [step003, hact, h]
  · intro now sc r r2 a h
    rcases step003_cases now sc r with heq | ⟨heq, -⟩ | ⟨heq, -⟩ <;> rw [heq] at h
    · exact absurd (congrArg Prod.snd h) (by simp)
    · rw [← Option.some.inj (congrArg Prod.snd h)]
    · rw [← Option.some.inj (congrArg Prod.snd h)]

/-- Witness for C4: a delivered attempt of the simple-identity sweep is
addressed to the bookkeeperEmail of the record, records with no address are
skipped unchanged in both variants, and a key-based attempt is addressed to
the hardcoded test destination. -/
theorem c4_sweep_destination_resolution_witness :
    (SendAttempt.mk "b@x.com" true).dest = (jsOr (some "b@x.com") none).getD "" ∧
    step000 "2024-05-01T09:00:00.000Z" true ({ active := true } : Rec000) =
      ({ active := true }, none) ∧
    step003 "2024-05-01T09:00:00.000Z" true ({ active := true } : Rec003) =
      ({ active := true }, none) ∧
    (SendAttempt.mk "rajawatanubhav4@gmail.com" true).dest =
      "rajawatanubhav4@gmail.com" := by
  refine ⟨?_, ?_, ?_, ?_⟩
  · exact c4_sweep_destination_resolution.1 "2024-05-01T09:00:00.000Z" true
      { companyName := some "Acme", bookkeeperEmail := some "b@x.com", active := true }
      { companyName := some "Acme", bookkeeperEmail := some "b@x.com", active := true,
        lastNotifiedAt := some "2024-05-01T09:00:00.000Z" }
      (SendAttempt.mk "b@x.com" true) (by decide)
  · exact c4_sweep_destination_resolution.2.1 "2024-05-01T09:00:00.000Z" true
      { active := true } (by decide)
  · exact c4_sweep_destination_resolution.2.2.1 "2024-05-01T09:00:00.000Z" true
      { active := true } (by decide)
  · exact c4_sweep_destination_resolution.2.2.2 "2024-05-01T09:00:00.000Z" true
      { companyName := "Acme", bookkeeperEmail := "b@x.com", active := true }
      { companyName := "Acme", bookkeeperEmail := "b@x.com", active := true,
        lastNotifiedAt := some "2024-05-01T09:00:00.000Z" }
      (SendAttempt.mk "rajawatanubhav4@gmail.com" true) (by decide)

/-! Lemmas on the key-based upsert as replace-first-or-append, for the
idempotence claim. -/

theorem mkEntry003_key (p : Payload) (now : String) :
    (mkEntry003 p now).key = mkKey p := rfl

theorem merge003_key (old e : Rec003) : (merge003 old e).key = e.key := rfl

theorem upsert003_store_eq_core (p : Payload) (now : String) (store : List Rec003)
    (hv : (truthy p.companyNo || truthy p.companyName) = true) :
    (upsert003 p now store).store = upsertCore (mkEntry003 p now) store := by
  have hcond := validCond_false hv
  unfold upsert003
  simp only [hcond, Bool.false_eq_true, if_false]
  induction store with
  | nil => simp [upsertCore, UpsertOut.store]
  | cons r rs ih =>
    rw [List.findIdx?_cons]
    cases hm : (r.key == mkKey p) with
    | true =>
        simp [hm, upsertCore, mkEntry003_key, UpsertOut.store]
    | false =>
        simp only [hm, Bool.false_eq_true, if_false, List.findIdx?_start_succ]
        cases hfi : rs.findIdx? (fun r => r.key == mkKey p) with
        | none =>
            rw [hfi] at ih
            simp only [hfi, Option.map_none', UpsertOut.store] at ih ⊢
            simp [upsertCore, mkEntry003_key, hm, ← ih]
        | some j =>
            rw [hfi] at ih
            simp only [hfi, Option.map_some', UpsertOut.store] at ih ⊢
            simp [upsertCore, mkEntry003_key, hm, ← ih]

theorem upsertCore_keys_mem (e : Rec003) :
    ∀ (l : List Rec003) (x : String), x ∈ (upsertCore e l).map Rec003.key →
      x = e.key ∨ x ∈ l.map Rec003.key := by
  intro l
  induction l with
  | nil =>
      intro x hx
      simp [upsertCore] at hx
      exact Or.inl hx
  | cons r rs ih =>
    intro x hx
    cases hm : (r.key == e.key) with
    | true =>
        simp only [upsertCore, hm, if_true, List.map_cons, List.mem_cons] at hx
        rcases hx with hx | hx
        · exact Or.inl hx
        · exact Or.inr (List.mem_cons_of_mem _ hx)
    | false =>
        simp only [upsertCore, hm, Bool.false_eq_true, if_false, List.map_cons,
          List.mem_cons] at hx
        rcases hx with hx | hx
        · exact Or.inr (by rw [hx]; exact List.mem_cons_self _ _)
        · rcases ih x hx with h1 | h2
          · exact Or.inl h1
          · exact Or.inr (List.mem_cons_of_mem _ h2)

theorem upsertCore_keys_nodup (e : Rec003) :
    ∀ l : List Rec003, (l.map Rec003.key).Nodup →
      ((upsertCore e l).map Rec003.key).Nodup := by
  intro l
  induction l with
  | nil =>
      intro _
      simp [upsertCore]
  | cons r rs ih =>
    intro hnd
    rw [List.map_cons, List.nodup_cons] at hnd
    obtain ⟨hnotin, hnd2⟩ := hnd
    cases hm : (r.key == e.key) with
    | true =>
        have hre : r.key = e.key := eq_of_beq hm
        simp only [upsertCore, hm, if_true, List.map_cons, List.nodup_cons]
        exact ⟨by rw [merge003_key, ← hre]; exact hnotin, hnd2⟩
    | false =>
        have hre : r.key ≠ e.key := by
          intro hcontra
          rw [hcontra] at hm
          simp at hm
        simp only [upsertCore, hm, Bool.false_eq_true, if_false, List.map_cons,
          List.nodup_cons]
        refine ⟨?_, ih hnd2⟩
        intro hmem
        rcases upsertCore_keys_mem e rs _ hmem with h1 | h2
        · exact hre h1
        · exact hnotin h2

theorem upsertCore_countP_key (e : Rec003) :
    ∀ l : List Rec003, (l.map Rec003.key).Nodup →
      ((upsertCore e l).countP fun r => r.key == e.key) = 1 := by
  intro l
  induction l with
  | nil => simp [upsertCore]
  | cons r rs ih =>
    intro hnd
    rw [List.map_cons, List.nodup_cons] at hnd
    obtain ⟨hnotin, hnd2⟩ := hnd
    cases hm : (r.key == e.key) with
    | true =>
        have hre : r.key = e.key := eq_of_beq hm
        have hzero : (rs.countP fun r => r.key == e.key) = 0 := by
          rw [List.countP_eq_zero]
          intro a ha hpa
          apply hnotin
          rw [hre]
          have hak : a.key = e.key := eq_of_beq hpa
          exact List.mem_map.mpr ⟨a, ha, hak⟩
        simp [upsertCore, hm, hzero, List.countP_cons, merge003_key]
    | false =>
        simp [upsertCore, hm, List.countP_cons, ih hnd2]

theorem upsertCore_key_record (e : Rec003) :
    ∀ l : List Rec003, (l.map Rec003.key).Nodup →
      ∀ x ∈ upsertCore e l, x.key = e.key →
        { x with email := none } = { e with email := none } := by
  intro l
  induction l with
  | nil =>
      intro _ x hx hk
      simp [upsertCore] at hx
      rw [hx]
  | cons r rs ih =>
    intro hnd x hx hk
    rw [List.map_cons, List.nodup_cons] at hnd
    obtain ⟨hnotin, hnd2⟩ := hnd
    cases hm : (r.key == e.key) with
    | true =>
        have hre : r.key = e.key := eq_of_beq hm
        simp only [upsertCore, hm, if_true, List.mem_cons] at hx
        rcases hx with hx | hx
        · rw [hx]
          rfl
        · exfalso
          apply hnotin
          rw [hre, ← hk]
          exact List.mem_map.mpr ⟨x, hx, rfl⟩
    | false =>
        have hre : r.key ≠ e.key := by
          intro hcontra
          rw [hcontra] at hm
          simp at hm
        simp only [upsertCore, hm, Bool.false_eq_true, if_false, List.mem_cons] at hx
        rcases hx with hx | hx
        · rw [hx] at hk
          exact absurd hk hre
        · exact ih hnd2 x hx hk

/-- Claim C7 (amended): in the key-based variant, on any store whose keys are
pairwise distinct, submitting two payloads with the same truthy companyNo,
differing only in status, leaves exactly one record keyed by that companyNo,
and that record is the entry rebuilt from the later submission (its stored
`email`, the one field the entry does not define, aside); in the
simple-identity variant the OR-match on companyName can leave two records
with the same companyNo, as `c7_cex` shows. -/
theorem c7_upsert_idempotent_on_key
    (store : List Rec003) (p1 p2 : Payload) (t1 t2 : String)
    (hnd : (store.map Rec003.key).Nodup)
    (hno : truthy p1.companyNo = true)
    (hsame : p2.companyNo = p1.companyNo) :
    (((upsert003 p2 t2 (upsert003 p1 t1 store).store).store).countP
        fun r => r.key == p1.companyNo.getD "") = 1 ∧
    ∀ x ∈ (upsert003 p2 t2 (upsert003 p1 t1 store).store).store,
      x.key = p1.companyNo.getD "" → { x with email := none } = mkEntry003 p2 t2 := by
  have hno2 : truthy p2.companyNo = true := by rw [hsame]; exact hno
  have hv1 : (truthy p1.companyNo || truthy p1.companyName) = true := by simp [hno]
  have hv2 : (truthy p2.companyNo || truthy p2.companyName) = true := by simp [hno2]
  have hk2 : mkKey p2 = p1.companyNo.getD "" := by simp [mkKey, hsame, hno]
  have he2key : (mkEntry003 p2 t2).key = p1.companyNo.getD "" := hk2
  have hst1 : (upsert003 p1 t1 store).store = upsertCore (mkEntry003 p1 t1) store :=
    upsert003_store_eq_core p1 t1 store hv1
  have hst2 : (upsert003 p2 t2 (upsert003 p1 t1 store).store).store =
      upsertCore (mkEntry003 p2 t2) (upsertCore (mkEntry003 p1 t1) store) := by
    rw [upsert003_store_eq_core p2 t2 _ hv2, hst1]
  have hnd1 : ((upsertCore (mkEntry003 p1 t1) store).map Rec003.key).Nodup :=
    upsertCore_keys_nodup _ store hnd
  constructor
  · rw [hst2]
    have hcount := upsertCore_countP_key (mkEntry003 p2 t2)
      (upsertCore (mkEntry003 p1 t1) store) hnd1
    simp only [he2key] at hcount
    exact hcount
  · intro x hx hkx
    rw [hst2] at hx
    exact upsertCore_key_record (mkEntry003 p2 t2) _ hnd1 x hx (by rw [he2key]; exact hkx)

/-- Witness for C7: submitting companyNo 7 twice, first with status s1 and
then with status s2, onto a one-record store keyed 7 leaves exactly one
record with key 7, equal to the entry built from the second submission. -/
theorem c7_upsert_idempotent_on_key_witness :
    (((upsert003 { companyNo := some "7", status := some "s2" }
        "2024-01-02T00:00:00.000Z"
        (upsert003 { companyNo := some "7", status := some "s1" }
          "2024-01-01T00:00:00.000Z"
          [{ key := "7", companyNo := "7", status := "old" }]).store).store).countP
      fun r => r.key == (some "7" : Option String).getD "") = 1 ∧
    { mkEntry003 { companyNo := some "7", status := some "s2" }
        "2024-01-02T00:00:00.000Z" with email := none } =
      mkEntry003 { companyNo := some "7", status := some "s2" }
        "2024-01-02T00:00:00.000Z" := by
  constructor
  · exact (c7_upsert_idempotent_on_key
      [{ key := "7", companyNo := "7", status := "old" }]
      { companyNo := some "7", status := some "s1" }
      { companyNo := some "7", status := some "s2" }
      "2024-01-01T00:00:00.000Z" "2024-01-02T00:00:00.000Z"
      (by decide) (by decide) (by decide)).1
  · exact (c7_upsert_idempotent_on_key
      [{ key := "7", companyNo := "7", status := "old" }]
      { companyNo := some "7", status := some "s1" }
      { companyNo := some "7", status := some "s2" }
      "2024-01-01T00:00:00.000Z" "2024-01-02T00:00:00.000Z"
      (by decide) (by decide) (by decide)).2
      (mkEntry003 { companyNo := some "7", status := some "s2" }
        "2024-01-02T00:00:00.000Z")
      (by decide) (by decide)

end Bookkeeping
